import Mathlib

/-
Verification of the realt-time-car backend (src/backend/main.go).

The backend keeps a single integer "carPosition" in Redis, updated by
POST /position with a JSON body {"delta": d} (handler updatePosition),
read by GET /position (handler getPosition), and pushed to WebSocket
subscribers (broadcastPosition, handleWSRead, wsHandler).

Shallow embedding choices:
- The Redis key "carPosition" is an `Option Int` (none = key absent;
  redis.Nil on Get, created at 0 by IncrBy).  Go's int64/int are modelled
  as `Int`; the handlers never overflow-check, and Redis INCRBY semantics
  are plain integer addition here.
- Fallibility of the Redis calls is an oracle: boolean flags say whether
  a given IncrBy / Set / Get call fails.  A failed call leaves the store
  unchanged and yields an error, exactly as the Go error paths do.
- `updatePosition` returns, besides the HTTP response and the new store
  state, the observable traces of the handler: which IncrBy calls were
  made (incrCalls), which Set calls (setCalls), and which values were
  handed to broadcastPosition (broadcasts).
- `broadcastPosition` is embedded as the loop over the client set,
  producing the event trace (mutex lock, per-client write, close, unlock)
  and the surviving client set; a client carries a flag saying whether
  WriteMessage to it fails.
- The WebSocket lifecycle (wsHandler / handleWSRead / the pruning in
  broadcastPosition) is a small transition system on registered /
  terminated / closed connection ids.
-/

namespace CarServer

/-- DeltaRequest is the JSON body for incrementing position (main.go line 34). -/
structure DeltaRequest where
  delta : Int
deriving DecidableEq

/-- PositionResponse is how the server broadcasts and returns the position
(main.go line 39). -/
structure PositionResponse where
  position : Int
deriving DecidableEq

/-- HTTP error classes used by the handlers: http.StatusBadRequest (400)
and http.StatusInternalServerError (500). -/
inductive HttpError where
  | badRequest
  | serverError
deriving DecidableEq

/-- Result written to the HTTP response: either a JSON-encoded
PositionResponse or an error status. -/
inductive HttpResult where
  | ok (resp : PositionResponse)
  | error (e : HttpError)
deriving DecidableEq

/-- Everything observable about one run of the updatePosition handler:
the HTTP response, the carPosition key afterwards, the deltas passed to
IncrBy, the values passed to Set, and the values passed to
broadcastPosition. -/
structure UpdateResult where
  response : HttpResult
  store : Option Int
  incrCalls : List Int
  setCalls : List Int
  broadcasts : List Int
deriving DecidableEq

/-- Embedding of updatePosition (main.go lines 118-144).
`body` is the result of json.Decode on the request body (none = decode
error), `store` the current carPosition key, `incrFails` / `setFails`
whether the IncrBy / Set Redis calls fail. -/
def updatePosition (body : Option DeltaRequest) (store : Option Int)
    (incrFails setFails : Bool) : UpdateResult :=
  match body with
  | none => ⟨.error .badRequest, store, [], [], []⟩
  | some req =>
    if incrFails then
      ⟨.error .serverError, store, [req.delta], [], []⟩
    else
      let newPos : Int := store.getD 0 + req.delta
      if newPos < 0 then
        ⟨.ok ⟨0⟩, if setFails then some newPos else some 0,
          [req.delta], [0], [0]⟩
      else
        ⟨.ok ⟨newPos⟩, some newPos, [req.delta], [], [newPos]⟩

/-- Embedding of getPosition (main.go lines 102-115): rdb.Get, with
redis.Nil (absent key) mapped to 0 and any other error surfaced as a 500. -/
def getPosition (store : Option Int) (getFails : Bool) : HttpResult :=
  if getFails then .error .serverError
  else .ok ⟨store.getD 0⟩

/-- A WebSocket client as seen by broadcastPosition: its identity and
whether conn.WriteMessage fails on it. -/
structure Client where
  id : Nat
  writeFails : Bool
deriving DecidableEq

/-- Events of the broadcast fan-out: taking and releasing wsMutex,
writing the serialized message to one client, closing one client. -/
inductive BEvent where
  | lock
  | write (c : Nat) (msg : Int)
  | close (c : Nat)
  | unlock
deriving DecidableEq

/-- The body of the range loop in broadcastPosition (main.go lines
192-199): attempt WriteMessage to every client; on error, close that
client and delete it from wsClients, then keep going.  Returns the event
trace of the loop and the clients still registered afterwards. -/
def broadcastLoop (msg : Int) : List Client → List BEvent × List Client
  | [] => ([], [])
  | c :: rest =>
    let r := broadcastLoop msg rest
    if c.writeFails then
      (.write c.id msg :: .close c.id :: r.1, r.2)
    else
      (.write c.id msg :: r.1, c :: r.2)

/-- Embedding of broadcastPosition (main.go lines 186-200): wsMutex.Lock,
the loop over wsClients, then the deferred wsMutex.Unlock. -/
def broadcastPosition (msg : Int) (clients : List Client) :
    List BEvent × List Client :=
  let r := broadcastLoop msg clients
  (.lock :: (r.1 ++ [.unlock]), r.2)

/-- Lock-depth check: true iff every write event in the trace happens
while the mutex is NOT held (lock depth zero). -/
def writesAtDepthZero : Nat → List BEvent → Bool
  | _, [] => true
  | d, .lock :: es => writesAtDepthZero (d + 1) es
  | d, .unlock :: es => writesAtDepthZero (d - 1) es
  | d, .write _ _ :: es => (d == 0) && writesAtDepthZero d es
  | d, .close _ :: es => writesAtDepthZero d es

/-- Lock-depth check: true iff every write event in the trace happens
while the mutex IS held (lock depth positive). -/
def writesUnderLock : Nat → List BEvent → Bool
  | _, [] => true
  | d, .lock :: es => writesUnderLock (d + 1) es
  | d, .unlock :: es => writesUnderLock (d - 1) es
  | d, .write _ _ :: es => (decide (0 < d)) && writesUnderLock d es
  | d, .close _ :: es => writesUnderLock d es

/-- State of the WebSocket connection lifecycle: ids currently in
wsClients (registry), ids whose handleWSRead loop has terminated, ids
ever accepted by wsHandler, ids on which conn.Close has been called. -/
structure WsState where
  registry : List Nat
  terminated : List Nat
  connected : List Nat
  closed : List Nat
deriving DecidableEq

/-- Lifecycle events: wsHandler accepting a fresh connection (adds it to
wsClients and spawns its read loop), the read loop of a connection
terminating (its defer deletes it from wsClients and closes the conn,
main.go lines 170-176), and broadcastPosition pruning a registered
connection after a failed write (close + delete, lines 194-198)
while its read loop is still running. -/
inductive WsEvent where
  | connect (c : Nat)
  | readTerminate (c : Nat)
  | broadcastPrune (c : Nat)

/-- Insert an id into a set-like list if not present. -/
def addOnce (c : Nat) (l : List Nat) : List Nat :=
  if c ∈ l then l else c :: l

/-- One lifecycle transition.  Guards: connection ids are fresh (a new
*websocket.Conn pointer is never reused), a read loop terminates at most
once and only for an accepted connection, and broadcast pruning only hits
currently registered connections. -/
def wsStep (s : WsState) : WsEvent → WsState
  | .connect c =>
    if c ∈ s.connected then s
    else { s with registry := c :: s.registry, connected := c :: s.connected }
  | .readTerminate c =>
    if c ∈ s.connected ∧ c ∉ s.terminated then
      { s with registry := s.registry.filter (fun x => x != c),
               terminated := c :: s.terminated,
               closed := addOnce c s.closed }
    else s
  | .broadcastPrune c =>
    if c ∈ s.registry then
      { s with registry := s.registry.filter (fun x => x != c),
               closed := addOnce c s.closed }
    else s

/-- Initial lifecycle state: no connections. -/
def wsInit : WsState := ⟨[], [], [], []⟩

/-- Run a sequence of lifecycle events from the initial state. -/
def wsRun (evs : List WsEvent) : WsState :=
  evs.foldl wsStep wsInit

/-- One update on the value level: the carPosition value after a
successful updatePosition with delta d, starting from value v. -/
def stepVal (v d : Int) : Int :=
  if v + d < 0 then 0 else v + d

/-- Apply a sequence of deltas through updatePosition (all Redis calls
succeeding), threading the store. -/
def runUpdates (s : Option Int) (ds : List Int) : Option Int :=
  ds.foldl (fun st d => (updatePosition (some ⟨d⟩) st false false).store) s

/-- True iff, starting from value v, no intermediate IncrBy result along
the delta sequence is negative. -/
def prefixOk : Int → List Int → Bool
  | _, [] => true
  | v, d :: ds => decide (0 ≤ v + d) && prefixOk (v + d) ds

/-! Theorems. -/

theorem updatePosition_store_eq (s : Option Int) (d : Int) :
    (updatePosition (some ⟨d⟩) s false false).store =
      some (stepVal (s.getD 0) d) := by
  rcases lt_or_ge (s.getD 0 + d) 0 with h | h
  · simp [updatePosition, stepVal, h]
  · simp [updatePosition, stepVal, not_lt.2 h]

theorem runUpdates_getD (ds : List Int) : ∀ s : Option Int,
    (runUpdates s ds).getD 0 = ds.foldl stepVal (s.getD 0) := by
  induction ds with
  | nil => intro s; rfl
  | cons d ds ih =>
    intro s
    have h1 : runUpdates s (d :: ds) =
        runUpdates ((updatePosition (some ⟨d⟩) s false false).store) ds := rfl
    rw [h1, updatePosition_store_eq s d, ih]
    rfl

theorem foldl_stepVal_eq_sum (ds : List Int) : ∀ v : Int,
    prefixOk v ds = true → ds.foldl stepVal v = v + ds.sum := by
  induction ds with
  | nil => intro v _; simp
  | cons d ds ih =>
    intro v h
    simp only [prefixOk, Bool.and_eq_true, decide_eq_true_eq] at h
    obtain ⟨h1, h2⟩ := h
    have hs : stepVal v d = v + d := by
      unfold stepVal; rw [if_neg (not_lt.2 h1)]
    simp only [List.foldl_cons, List.sum_cons, hs, ih (v + d) h2]
    ring

theorem foldl_stepVal_nonneg (ds : List Int) : ∀ v : Int,
    0 ≤ v → 0 ≤ ds.foldl stepVal v := by
  induction ds with
  | nil => intro v h; simpa using h
  | cons d ds ih =>
    intro v h
    refine ih (stepVal v d) ?_
    unfold stepVal
    split
    · exact le_refl 0
    · omega

/-- Claim C2: applying deltas d1..dn sequentially through updatePosition
from an absent/zero state: if no intermediate IncrBy result is negative,
the final value is the sum of the deltas; and in every case the final
value is nonnegative. -/
theorem c2_sequential_sum (ds : List Int) (s : Option Int)
    (hs : s.getD 0 = 0) :
    (prefixOk 0 ds = true → (runUpdates s ds).getD 0 = ds.sum) ∧
    0 ≤ (runUpdates s ds).getD 0 := by
  constructor
  · intro h
    rw [runUpdates_getD, hs, foldl_stepVal_eq_sum ds 0 h, zero_add]
  · rw [runUpdates_getD, hs]
    exact foldl_stepVal_nonneg ds 0 le_rfl

/-- Witness for C2 on the delta sequence [3, -1, 2] from an absent key. -/
theorem c2_sequential_sum_w :
    (Option.getD (none : Option Int) 0 = 0) ∧
    prefixOk 0 [3, -1, 2] = true ∧
    ((runUpdates none [3, -1, 2]).getD 0 = ([3, -1, 2] : List Int).sum ∧
     0 ≤ (runUpdates none [3, -1, 2]).getD 0) :=
  ⟨rfl, by decide,
   ⟨(c2_sequential_sum [3, -1, 2] none rfl).1 (by decide),
    (c2_sequential_sum [3, -1, 2] none rfl).2⟩⟩

/-- Counterexample to claim C9 as stated: with the key holding -1, a
delta-0 update does not produce the current value -1 as its effective
result, and it does perform a state-modifying Set write (the clamp). -/
theorem c9_counterexample :
    ¬ ((updatePosition (some ⟨0⟩) (some (-1)) false false).response =
          .ok ⟨-1⟩ ∧
       (updatePosition (some ⟨0⟩) (some (-1)) false false).setCalls = []) := by
  decide

/-- Claim C9 (amended): for every current state in the invariant range
(absent key or nonnegative value), a delta-0 update returns and
broadcasts the unchanged current value, performs no clamp Set write, and
leaves the observable value unchanged (IncrBy of 0 merely rewrites the
same value, creating an absent key at 0). -/
theorem c9_zero_delta_idempotent (s : Option Int) (h : 0 ≤ s.getD 0) :
    (updatePosition (some ⟨0⟩) s false false).response = .ok ⟨s.getD 0⟩ ∧
    (updatePosition (some ⟨0⟩) s false false).broadcasts = [s.getD 0] ∧
    (updatePosition (some ⟨0⟩) s false false).setCalls = [] ∧
    ((updatePosition (some ⟨0⟩) s false false).store).getD 0 = s.getD 0 := by
  have hn : ¬ (s.getD 0 < 0) := by omega
  simp [updatePosition, hn]

/-- Witness for C9 (amended) at store = some 5, delta = 0. -/
theorem c9_zero_delta_idempotent_w :
    (0 ≤ Option.getD (some 5) (0 : Int)) ∧
    ((updatePosition (some ⟨0⟩) (some 5) false false).response = .ok ⟨Option.getD (some 5) 0⟩ ∧
     (updatePosition (some ⟨0⟩) (some 5) false false).broadcasts = [Option.getD (some 5) 0] ∧
     (updatePosition (some ⟨0⟩) (some 5) false false).setCalls = [] ∧
     ((updatePosition (some ⟨0⟩) (some 5) false false).store).getD 0 = Option.getD (some 5) 0) :=
  ⟨by decide, c9_zero_delta_idempotent (some 5) (by decide)⟩

/-- Claim C10: when IncrBy returns a negative value and the clamp Set
fails, updatePosition ignores the failure: it still responds
{position: 0} with no surfaced error, broadcasts 0, yet the key keeps
its negative value. -/
theorem c10_set_failure_ignored (s : Option Int) (d : Int)
    (h : s.getD 0 + d < 0) :
    updatePosition (some ⟨d⟩) s false true =
      ⟨.ok ⟨0⟩, some (s.getD 0 + d), [d], [0], [0]⟩ := by
  simp [updatePosition, h]

/-- Witness for C10 at absent key, delta = -7: the caller and the
broadcast see 0 while the key holds -7. -/
theorem c10_set_failure_ignored_w :
    (Option.getD (none : Option Int) 0 + (-7 : Int) < 0) ∧
    updatePosition (some ⟨-7⟩) none false true =
      ⟨.ok ⟨0⟩, some (Option.getD (none : Option Int) 0 + -7), [-7], [0], [0]⟩ :=
  ⟨by decide, c10_set_failure_ignored none (-7) (by decide)⟩

/-- Claim C1: for every delta submitted to updatePosition, when IncrBy
succeeds (and the clamp Set succeeds), the response and the broadcast
value both equal max(0, value returned by IncrBy); and whenever that
value is negative, the handler writes 0 back via Set and the key ends at
0. -/
theorem c1_clamp_to_max (s : Option Int) (d : Int) :
    (updatePosition (some ⟨d⟩) s false false).response =
      .ok ⟨max 0 (s.getD 0 + d)⟩ ∧
    (updatePosition (some ⟨d⟩) s false false).broadcasts =
      [max 0 (s.getD 0 + d)] ∧
    (s.getD 0 + d < 0 →
      (updatePosition (some ⟨d⟩) s false false).setCalls = [0] ∧
      (updatePosition (some ⟨d⟩) s false false).store = some 0) := by
  unfold updatePosition
  rcases lt_or_ge (s.getD 0 + d) 0 with h | h
  · simp only [if_pos h]
    refine ⟨?_, ?_, fun _ => ⟨rfl, rfl⟩⟩ <;>
      simp [max_eq_left h.le]
  · simp only [if_neg (not_lt.2 h)]
    exact ⟨by simp [max_eq_right h], by simp [max_eq_right h], fun hc => absurd hc (not_lt.2 h)⟩

/-- Witness for C1 at store = some 2, delta = -5 (IncrBy returns -3). -/
theorem c1_clamp_to_max_w :
    (Option.getD (some 2) 0 + (-5 : Int) < 0) ∧
    ((updatePosition (some ⟨-5⟩) (some 2) false false).setCalls = [0] ∧
     (updatePosition (some ⟨-5⟩) (some 2) false false).store = some 0) :=
  ⟨by decide, (c1_clamp_to_max (some 2) (-5)).2.2 (by decide)⟩

/-- Claim C3: when the IncrBy call fails, updatePosition surfaces a 500
to the caller, makes no Set call (no clamp write), hands nothing to
broadcastPosition, and leaves the key untouched. -/
theorem c3_incr_error_aborts (req : DeltaRequest) (s : Option Int) (setFails : Bool) :
    updatePosition (some req) s true setFails =
      ⟨.error .serverError, s, [req.delta], [], []⟩ := rfl

/-- Claim C8: when the request body does not decode as a DeltaRequest,
updatePosition returns a 400 client error, calls neither IncrBy nor Set,
broadcasts nothing, and leaves the key untouched. -/
theorem c8_malformed_no_mutation (s : Option Int) (incrFails setFails : Bool) :
    updatePosition none s incrFails setFails =
      ⟨.error .badRequest, s, [], [], []⟩ := rfl

/-- Claim C7: getPosition maps an absent key to 0 rather than an error,
and after any successful update its value equals the effective value that
the update returned, namely max(0, result of IncrBy). -/
theorem c7_get_roundtrip (s : Option Int) (d : Int) :
    getPosition none false = .ok ⟨0⟩ ∧
    getPosition ((updatePosition (some ⟨d⟩) s false false).store) false =
      .ok ⟨max 0 (s.getD 0 + d)⟩ ∧
    (updatePosition (some ⟨d⟩) s false false).response =
      .ok ⟨max 0 (s.getD 0 + d)⟩ := by
  refine ⟨rfl, ?_, ?_⟩ <;>
    simp only [updatePosition, getPosition] <;>
    rcases lt_or_ge (s.getD 0 + d) 0 with h | h <;>
    simp [if_pos, if_neg, h, not_lt.2 h, max_eq_left h.le, max_eq_right h]

theorem broadcastLoop_survivors (msg : Int) (cs : List Client) :
    (broadcastLoop msg cs).2 = cs.filter (fun c => !c.writeFails) := by
  induction cs with
  | nil => rfl
  | cons a cs ih =>
    cases hf : a.writeFails <;>
      simp [broadcastLoop, hf, List.filter_cons, ih]

theorem broadcastLoop_write_mem (msg : Int) (cs : List Client) (c : Client)
    (h : c ∈ cs) : BEvent.write c.id msg ∈ (broadcastLoop msg cs).1 := by
  induction cs with
  | nil => cases h
  | cons a cs ih =>
    rcases List.mem_cons.1 h with rfl | h
    · cases hf : c.writeFails <;> simp [broadcastLoop, hf]
    · cases hf : a.writeFails <;> simp [broadcastLoop, hf, ih h]

theorem broadcastLoop_close_mem (msg : Int) (cs : List Client) (c : Client)
    (h : c ∈ cs) (hf : c.writeFails = true) :
    BEvent.close c.id ∈ (broadcastLoop msg cs).1 := by
  induction cs with
  | nil => cases h
  | cons a cs ih =>
    rcases List.mem_cons.1 h with rfl | h
    · simp [broadcastLoop, hf]
    · cases ha : a.writeFails <;> simp [broadcastLoop, ha, ih h]

/-- Claim C4: in a broadcast fan-out over any client set, every client is
attempted (a write event for it appears in the trace); a client whose
write fails is closed and dropped from the registry, while the loop goes
on; a client whose write succeeds stays registered — one failing client
never prevents delivery to the others. -/
theorem c4_broadcast_isolation (msg : Int) (cs : List Client) (c : Client)
    (h : c ∈ cs) :
    BEvent.write c.id msg ∈ (broadcastPosition msg cs).1 ∧
    (c.writeFails = true →
      BEvent.close c.id ∈ (broadcastPosition msg cs).1 ∧
      c ∉ (broadcastPosition msg cs).2) ∧
    (c.writeFails = false → c ∈ (broadcastPosition msg cs).2) := by
  simp only [broadcastPosition]
  refine ⟨?_, fun hf => ⟨?_, ?_⟩, fun hf => ?_⟩
  · exact List.mem_cons_of_mem _
      (List.mem_append_left _ (broadcastLoop_write_mem msg cs c h))
  · exact List.mem_cons_of_mem _
      (List.mem_append_left _ (broadcastLoop_close_mem msg cs c h hf))
  · rw [broadcastLoop_survivors]
    intro hc
    have hp := (List.mem_filter.1 hc).2
    simp [hf] at hp
  · rw [broadcastLoop_survivors]
    exact List.mem_filter.2 ⟨h, by simp [hf]⟩

/-- Witness for C4: among clients 0 (healthy) and 1 (failing write),
client 1 is closed and pruned while client 0 is still attempted and kept. -/
theorem c4_broadcast_isolation_w :
    ((Client.mk 1 true) ∈ [Client.mk 0 false, Client.mk 1 true]) ∧
    ((Client.mk 1 true).writeFails = true) ∧
    (BEvent.close (Client.mk 1 true).id ∈
        (broadcastPosition 7 [Client.mk 0 false, Client.mk 1 true]).1 ∧
     (Client.mk 1 true) ∉
        (broadcastPosition 7 [Client.mk 0 false, Client.mk 1 true]).2) :=
  ⟨by decide, by decide,
   (c4_broadcast_isolation 7 [Client.mk 0 false, Client.mk 1 true]
      (Client.mk 1 true) (by decide)).2.1 rfl⟩

theorem writesUnderLock_loop (msg : Int) (cs : List Client) : ∀ d : Nat,
    0 < d →
    writesUnderLock d ((broadcastLoop msg cs).1 ++ [BEvent.unlock]) = true := by
  induction cs with
  | nil => intro d _; rfl
  | cons a cs ih =>
    intro d hd
    cases hf : a.writeFails <;>
      simp [broadcastLoop, hf, writesUnderLock, Bool.and_eq_true,
        decide_eq_true_eq, hd, ih d hd]

/-- Counterexample to claim C5 as stated: broadcastPosition does not
perform its per-subscriber writes outside the wsMutex critical section —
already with a single healthy client, the write event sits at positive
lock depth in the trace. -/
theorem c5_counterexample :
    writesAtDepthZero 0 (broadcastPosition 5 [Client.mk 0 false]).1 = false := by
  decide

/-- Claim C5 (amended): broadcastPosition acquires wsMutex before the
fan-out and releases it only afterwards, iterating the live wsClients map
itself; every per-subscriber write is performed while the lock is held,
not over an unlocked point-in-time copy. -/
theorem c5_lock_held_during_writes (msg : Int) (cs : List Client) :
    writesUnderLock 0 (broadcastPosition msg cs).1 = true := by
  have h := writesUnderLock_loop msg cs 1 Nat.one_pos
  simpa only [broadcastPosition, writesUnderLock] using h

/-- Invariant of the connection lifecycle: every registered connection
was accepted and its read loop has not yet terminated; every terminated
read loop belongs to an accepted connection whose conn has been closed. -/
def WsInv (s : WsState) : Prop :=
  (∀ c ∈ s.registry, c ∈ s.connected ∧ c ∉ s.terminated) ∧
  (∀ c ∈ s.terminated, c ∈ s.connected) ∧
  (∀ c ∈ s.terminated, c ∈ s.closed)

theorem addOnce_self_mem (c : Nat) (l : List Nat) : c ∈ addOnce c l := by
  unfold addOnce; split
  · assumption
  · exact List.mem_cons_self c l

theorem addOnce_mem_of_mem (c x : Nat) (l : List Nat) (h : x ∈ l) :
    x ∈ addOnce c l := by
  unfold addOnce; split
  · exact h
  · exact List.mem_cons_of_mem _ h

theorem wsStep_inv (s : WsState) (e : WsEvent) (h : WsInv s) :
    WsInv (wsStep s e) := by
  obtain ⟨h1, h2, h3⟩ := h
  cases e with
  | connect c =>
    simp only [wsStep]
    split
    · exact ⟨h1, h2, h3⟩
    · next hc =>
      refine ⟨?_, ?_, h3⟩
      · intro x hx
        rcases List.mem_cons.1 hx with rfl | hx
        · exact ⟨List.mem_cons_self _ _, fun ht => hc (h2 x ht)⟩
        · obtain ⟨ha, hb⟩ := h1 x hx
          exact ⟨List.mem_cons_of_mem _ ha, hb⟩
      · intro x hx
        exact List.mem_cons_of_mem _ (h2 x hx)
  | readTerminate c =>
    simp only [wsStep]
    split
    · next hg =>
      refine ⟨?_, ?_, ?_⟩
      · intro x hx
        rw [List.mem_filter] at hx
        obtain ⟨hm, hne⟩ := hx
        have hxc : x ≠ c := by simpa using hne
        obtain ⟨ha, hb⟩ := h1 x hm
        refine ⟨ha, fun ht => ?_⟩
        rcases List.mem_cons.1 ht with h' | h'
        · exact hxc h'
        · exact hb h'
      · intro x hx
        rcases List.mem_cons.1 hx with rfl | hx
        · exact hg.1
        · exact h2 x hx
      · intro x hx
        rcases List.mem_cons.1 hx with rfl | hx
        · exact addOnce_self_mem x _
        · exact addOnce_mem_of_mem _ _ _ (h3 x hx)
    · exact ⟨h1, h2, h3⟩
  | broadcastPrune c =>
    simp only [wsStep]
    split
    · refine ⟨?_, h2, ?_⟩
      · intro x hx
        rw [List.mem_filter] at hx
        exact h1 x hx.1
      · intro x hx
        exact addOnce_mem_of_mem _ _ _ (h3 x hx)
    · exact ⟨h1, h2, h3⟩

theorem wsRun_inv (evs : List WsEvent) : WsInv (wsRun evs) := by
  suffices h : ∀ s : WsState, WsInv s → WsInv (evs.foldl wsStep s) from
    h wsInit ⟨fun c hc => absurd hc (List.not_mem_nil c),
              fun c hc => absurd hc (List.not_mem_nil c),
              fun c hc => absurd hc (List.not_mem_nil c)⟩
  induction evs with
  | nil => intro s hs; exact hs
  | cons e evs ih => intro s hs; exact ih _ (wsStep_inv s e hs)

/-- Counterexample to claim C6 as stated: after wsHandler accepts
connection 0 and a broadcast write failure prunes it, connection 0 is out
of the registry although its read loop has not terminated — membership is
not equivalent to the read loop being alive. -/
theorem c6_counterexample :
    ¬ (∀ c ∈ (wsRun [WsEvent.connect 0, WsEvent.broadcastPrune 0]).connected,
        (c ∈ (wsRun [WsEvent.connect 0, WsEvent.broadcastPrune 0]).registry ↔
         c ∉ (wsRun [WsEvent.connect 0, WsEvent.broadcastPrune 0]).terminated)) := by
  decide

/-- Claim C6 (amended): in every reachable lifecycle state, a registered
connection is an accepted one whose read loop has not terminated, and any
read-loop termination removes the connection from the registry and closes
its conn; the converse direction fails, since a broadcast write failure
prunes a connection whose read loop is still running. -/
theorem c6_registry_readloop (evs : List WsEvent) (c : Nat) :
    (c ∈ (wsRun evs).registry →
       c ∈ (wsRun evs).connected ∧ c ∉ (wsRun evs).terminated) ∧
    (c ∈ (wsRun evs).terminated →
       c ∉ (wsRun evs).registry ∧ c ∈ (wsRun evs).closed) := by
  obtain ⟨h1, h2, h3⟩ := wsRun_inv evs
  exact ⟨fun hr => h1 c hr, fun ht => ⟨fun hr => (h1 c hr).2 ht, h3 c ht⟩⟩

/-- Witness for C6 (amended): connect 0, then its read loop terminates —
0 is gone from the registry and its conn is closed. -/
theorem c6_registry_readloop_w :
    (0 ∈ (wsRun [WsEvent.connect 0, WsEvent.readTerminate 0]).terminated) ∧
    (0 ∉ (wsRun [WsEvent.connect 0, WsEvent.readTerminate 0]).registry ∧
     0 ∈ (wsRun [WsEvent.connect 0, WsEvent.readTerminate 0]).closed) :=
  ⟨by decide,
   (c6_registry_readloop [WsEvent.connect 0, WsEvent.readTerminate 0] 0).2
     (by decide)⟩

end CarServer
